import Mathlib

/-!
Verification of the Gilded Rose inventory engine (`src/gilded_rose.rs`,
`src/spec.rs`).  Rust `i32` values are modelled as `Int` together with
explicit saturating arithmetic clamped to the `i32` range; Rust `&str`
names are modelled as `List Char`.
-/

namespace GildedRose

/-- Smallest `i32` value, `-2^31`. -/
def I32MIN : Int := -(2 ^ 31)

/-- Largest `i32` value, `2^31 - 1`. -/
def I32MAX : Int := 2 ^ 31 - 1

/-- The integer is representable as an `i32`. -/
def isI32 (x : Int) : Prop := I32MIN ≤ x ∧ x ≤ I32MAX

instance (x : Int) : Decidable (isI32 x) := by
  unfold isI32; infer_instance

/-- Rust `i32::saturating_add`. -/
def saturating_add (a b : Int) : Int := max I32MIN (min I32MAX (a + b))

/-- Rust `i32::saturating_sub`. -/
def saturating_sub (a b : Int) : Int := max I32MIN (min I32MAX (a - b))

/-- `QUALITY_MIN` from `spec.rs`. -/
def QUALITY_MIN : Int := 0

/-- `QUALITY_MAX` from `spec.rs`. -/
def QUALITY_MAX : Int := 50

/-- `inc_to_cap` from `spec.rs`: if `q >= QUALITY_MAX` return `q`,
else `q.saturating_add(n).min(QUALITY_MAX)`. -/
def inc_to_cap (q n : Int) : Int :=
  if QUALITY_MAX ≤ q then q else min (saturating_add q n) QUALITY_MAX

/-- `dec_to_floor` from `spec.rs`: if `q <= QUALITY_MIN` return `q`,
else `q.saturating_sub(n).max(QUALITY_MIN)`. -/
def dec_to_floor (q n : Int) : Int :=
  if q ≤ QUALITY_MIN then q else max (saturating_sub q n) QUALITY_MIN

/-- The `Kind` enum from `spec.rs`. -/
inductive Kind where
  | AgedBrie
  | BackstagePass
  | Legendary
  | Normal
deriving DecidableEq

/-- `NAME_BRIE` from `spec.rs`. -/
def nameBrie : List Char := "Aged Brie".data

/-- `PREFIX_BACKSTAGE` from `spec.rs`. -/
def backstageMark : List Char := "Backstage passes".data

/-- `NAME_SULFURAS` from `spec.rs`. -/
def nameSulfuras : List Char := "Sulfuras, Hand of Ragnaros".data

/-- `PREFIX_CONJURED` from `spec.rs`. -/
def conjuredMark : List Char := "Conjured ".data

/-- `impl From<&str> for Kind` from `spec.rs`: exact match for Brie and
Sulfuras, a starts-with match for backstage passes, `Normal` otherwise. -/
def kindOf (name : List Char) : Kind :=
  if name = nameBrie then Kind.AgedBrie
  else if name = nameSulfuras then Kind.Legendary
  else if backstageMark.isPrefixOf name then Kind.BackstagePass
  else Kind.Normal

/-- `split_conjured` from `spec.rs`: Rust
`name.strip_prefix(PREFIX_CONJURED)` yields the remainder when the
name starts with `"Conjured "`, in which case the flag is set. -/
def split_conjured (name : List Char) : Bool × List Char :=
  if conjuredMark.isPrefixOf name then (true, name.drop conjuredMark.length)
  else (false, name)

/-- The `Item` struct from `gilded_rose.rs`. -/
structure Item where
  name : List Char
  sell_in : Int
  quality : Int
deriving DecidableEq

/-- The same-day quality transition of `update_one_item`: the Rust
`match (&kind, it.sell_in)` before the `sell_in` decrement.  The
`Legendary` arm is `unreachable!`, modelled as `none`. -/
def sameDayQuality (kind : Kind) (sell_in q dec_delta : Int) : Option Int :=
  match kind with
  | Kind.Legendary => none
  | Kind.AgedBrie => some (inc_to_cap q 1)
  | Kind.BackstagePass =>
      if 11 ≤ sell_in then some (inc_to_cap q 1)
      else if 6 ≤ sell_in then some (inc_to_cap q 2)
      else if 1 ≤ sell_in then some (inc_to_cap q 3)
      else some q
  | Kind.Normal => some (dec_to_floor q dec_delta)

/-- The expiry quality transition of `update_one_item`: the Rust
`match kind` guarded by `it.sell_in.is_negative()` after the decrement.
The `Legendary` arm is `unreachable!`, modelled as `none`. -/
def expiryQuality (kind : Kind) (q dec_delta : Int) : Option Int :=
  match kind with
  | Kind.Normal => some (dec_to_floor q dec_delta)
  | Kind.AgedBrie => some (inc_to_cap q 1)
  | Kind.BackstagePass => some 0
  | Kind.Legendary => none

/-- The `dec_delta` binding of `update_one_item`:
`if is_conjured { 2 } else { 1 }`. -/
def decDelta (conj : Bool) : Int := if conj then 2 else 1

/-- `update_one_item` from `gilded_rose.rs`.  A `none` result models a
panic (only the two `unreachable!` arms).  Debug-only assertions are
absent in release builds and are not modelled. -/
def update_one_item (it : Item) : Option Item :=
  let c := split_conjured it.name
  let kind := kindOf c.2
  if kind = Kind.Legendary then some it
  else
    let dec_delta : Int := decDelta c.1
    match sameDayQuality kind it.sell_in it.quality dec_delta with
    | none => none
    | some q1 =>
      let s1 := saturating_sub it.sell_in 1
      if s1 < 0 then
        match expiryQuality kind q1 dec_delta with
        | none => none
        | some q2 => some ⟨it.name, s1, q2⟩
      else some ⟨it.name, s1, q1⟩

/-- `update_quality` from `gilded_rose.rs`: update every item of the
inventory in order, propagating a panic. -/
def update_quality : List Item → Option (List Item)
  | [] => some []
  | it :: rest =>
      match update_one_item it with
      | none => none
      | some it2 =>
          match update_quality rest with
          | none => none
          | some rest2 => some (it2 :: rest2)

/-! Helper lemmas. -/

theorem inc_to_cap_bounds (q n : Int) (h0 : 0 ≤ q) (h1 : q ≤ 50) (hn : 0 ≤ n) :
    0 ≤ inc_to_cap q n ∧ inc_to_cap q n ≤ 50 := by
  unfold inc_to_cap saturating_add QUALITY_MAX I32MIN I32MAX
  split <;> omega

theorem dec_to_floor_bounds (q n : Int) (h0 : 0 ≤ q) (h1 : q ≤ 50) (hn : 0 ≤ n) :
    0 ≤ dec_to_floor q n ∧ dec_to_floor q n ≤ 50 := by
  unfold dec_to_floor saturating_sub QUALITY_MIN I32MIN I32MAX
  split <;> omega

theorem update_legendary_eq (name : List Char) (s q : Int)
    (h : kindOf (split_conjured name).2 = Kind.Legendary) :
    update_one_item ⟨name, s, q⟩ = some ⟨name, s, q⟩ := by
  simp [update_one_item, h]

theorem decDelta_nonneg (c : Bool) : 0 ≤ decDelta c := by
  cases c <;> simp [decDelta]

theorem isPrefixOf_iff_exists (l1 l2 : List Char) :
    l1.isPrefixOf l2 = true ↔ ∃ t, l2 = l1 ++ t := by
  induction l1 generalizing l2 with
  | nil => simp [List.isPrefixOf]
  | cons a as ih =>
      cases l2 with
      | nil => simp [List.isPrefixOf]
      | cons b bs =>
          simp only [List.isPrefixOf, Bool.and_eq_true, beq_iff_eq, ih,
            List.cons_append, List.cons.injEq]
          constructor
          · rintro ⟨rfl, t, rfl⟩
            exact ⟨t, rfl, rfl⟩
          · rintro ⟨t, rfl, rfl⟩
            exact ⟨rfl, t, rfl⟩

theorem update_normal_eq (name : List Char) (s q : Int)
    (h : kindOf (split_conjured name).2 = Kind.Normal) :
    update_one_item ⟨name, s, q⟩ =
      if saturating_sub s 1 < 0 then
        some ⟨name, saturating_sub s 1,
          dec_to_floor (dec_to_floor q (decDelta (split_conjured name).1))
            (decDelta (split_conjured name).1)⟩
      else
        some ⟨name, saturating_sub s 1,
          dec_to_floor q (decDelta (split_conjured name).1)⟩ := by
  simp only [update_one_item, h, sameDayQuality, expiryQuality]
  split <;> simp_all

theorem update_brie_eq (name : List Char) (s q : Int)
    (h : kindOf (split_conjured name).2 = Kind.AgedBrie) :
    update_one_item ⟨name, s, q⟩ =
      if saturating_sub s 1 < 0 then
        some ⟨name, saturating_sub s 1, inc_to_cap (inc_to_cap q 1) 1⟩
      else some ⟨name, saturating_sub s 1, inc_to_cap q 1⟩ := by
  simp only [update_one_item, h, sameDayQuality, expiryQuality]
  split <;> simp_all

theorem update_backstage_eq (name : List Char) (s q : Int)
    (h : kindOf (split_conjured name).2 = Kind.BackstagePass) :
    update_one_item ⟨name, s, q⟩ =
      if saturating_sub s 1 < 0 then some ⟨name, saturating_sub s 1, 0⟩
      else
        some ⟨name, saturating_sub s 1,
          if 11 ≤ s then inc_to_cap q 1
          else if 6 ≤ s then inc_to_cap q 2
          else if 1 ≤ s then inc_to_cap q 3
          else q⟩ := by
  by_cases hs : saturating_sub s 1 < 0 <;>
    by_cases h11 : 11 ≤ s <;> by_cases h6 : 6 ≤ s <;> by_cases h1 : 1 ≤ s <;>
    simp [update_one_item, h, sameDayQuality, expiryQuality, hs, h11, h6, h1]

example : update_one_item ⟨"foo".data, 10, 10⟩ = some ⟨"foo".data, 9, 9⟩ := by
  decide

example : update_one_item ⟨"Sulfuras, Hand of Ragnaros".data, 0, 80⟩ =
    some ⟨"Sulfuras, Hand of Ragnaros".data, 0, 80⟩ := by decide

example : update_one_item ⟨"Conjured foo".data, 0, 10⟩ =
    some ⟨"Conjured foo".data, -1, 6⟩ := by decide

example :
    update_one_item ⟨("Backstage passes to a TAFKAL80ETC concert").data, 6, 10⟩ =
      some ⟨("Backstage passes to a TAFKAL80ETC concert").data, 5, 12⟩ := by
  decide

theorem update_name_preserved (it it2 : Item)
    (h : update_one_item it = some it2) : it2.name = it.name := by
  obtain ⟨name, s, q⟩ := it
  cases hkind : kindOf (split_conjured name).2 with
  | Legendary =>
      rw [update_legendary_eq _ _ _ hkind] at h
      cases h; rfl
  | Normal =>
      rw [update_normal_eq _ _ _ hkind] at h
      split at h <;> (cases h; rfl)
  | AgedBrie =>
      rw [update_brie_eq _ _ _ hkind] at h
      split at h <;> (cases h; rfl)
  | BackstagePass =>
      rw [update_backstage_eq _ _ _ hkind] at h
      split at h <;> (cases h; rfl)

/-- C9: in release builds `update_one_item` is total: for every name and
every pair of integer inputs it terminates without panicking, and the
`unreachable!` arms for the `Legendary` kind (the `none` results of the
model) are never executed. -/
theorem C9_update_total (it : Item) : (update_one_item it).isSome = true := by
  obtain ⟨name, s, q⟩ := it
  cases hkind : kindOf (split_conjured name).2 with
  | Legendary => rw [update_legendary_eq _ _ _ hkind]; rfl
  | Normal => rw [update_normal_eq _ _ _ hkind]; split <;> rfl
  | AgedBrie => rw [update_brie_eq _ _ _ hkind]; split <;> rfl
  | BackstagePass => rw [update_backstage_eq _ _ _ hkind]; split <;> rfl

/-- C2: an item whose name is exactly "Sulfuras, Hand of Ragnaros", with
or without a leading "Conjured " prefix, is classified Legendary and one
update leaves both `sell_in` and `quality` unchanged, for all integer
values of both fields. -/
theorem C2_legendary_unchanged (name : List Char) (s q : Int)
    (h : name = nameSulfuras ∨ name = conjuredMark ++ nameSulfuras) :
    kindOf (split_conjured name).2 = Kind.Legendary ∧
      update_one_item ⟨name, s, q⟩ = some ⟨name, s, q⟩ := by
  have hk : kindOf (split_conjured name).2 = Kind.Legendary := by
    rcases h with rfl | rfl <;> decide
  exact ⟨hk, update_legendary_eq name s q hk⟩

/-- C2 witness: Sulfuras at sell_in 3, quality 80 is untouched. -/
theorem C2_legendary_unchanged_witness :
    update_one_item ⟨nameSulfuras, 3, 80⟩ = some ⟨nameSulfuras, 3, 80⟩ :=
  (C2_legendary_unchanged nameSulfuras 3 80 (Or.inl rfl)).2

/-- C1: for every non-Legendary item whose input quality is in [0, 50],
after one update the quality is again in [0, 50], for every category,
conjured flag, and `sell_in` value. -/
theorem C1_quality_bounds (name : List Char) (s q : Int) (it2 : Item)
    (hk : kindOf (split_conjured name).2 ≠ Kind.Legendary)
    (h0 : 0 ≤ q) (h1 : q ≤ 50)
    (hu : update_one_item ⟨name, s, q⟩ = some it2) :
    0 ≤ it2.quality ∧ it2.quality ≤ 50 := by
  have hd : 0 ≤ decDelta (split_conjured name).1 :=
    decDelta_nonneg (split_conjured name).1
  cases hkind : kindOf (split_conjured name).2 with
  | Legendary => exact absurd hkind hk
  | Normal =>
      rw [update_normal_eq _ _ _ hkind] at hu
      obtain ⟨a0, a1⟩ := dec_to_floor_bounds q (decDelta (split_conjured name).1) h0 h1 hd
      split at hu <;> cases hu
      · exact dec_to_floor_bounds _ _ a0 a1 hd
      · exact ⟨a0, a1⟩
  | AgedBrie =>
      rw [update_brie_eq _ _ _ hkind] at hu
      obtain ⟨a0, a1⟩ := inc_to_cap_bounds q 1 h0 h1 (by norm_num)
      split at hu <;> cases hu
      · exact inc_to_cap_bounds _ 1 a0 a1 (by norm_num)
      · exact ⟨a0, a1⟩
  | BackstagePass =>
      rw [update_backstage_eq _ _ _ hkind] at hu
      split at hu <;> cases hu
      · exact ⟨le_refl 0, by norm_num⟩
      · simp only
        split
        · exact inc_to_cap_bounds q 1 h0 h1 (by norm_num)
        · split
          · exact inc_to_cap_bounds q 2 h0 h1 (by norm_num)
          · split
            · exact inc_to_cap_bounds q 3 h0 h1 (by norm_num)
            · exact ⟨h0, h1⟩

/-- C1 witness: a plain item at quality 0 stays in range. -/
theorem C1_quality_bounds_witness :
    0 ≤ (Item.mk ("foo").data (-1) 0).quality ∧
      (Item.mk ("foo").data (-1) 0).quality ≤ 50 :=
  C1_quality_bounds ("foo").data 0 0 ⟨("foo").data, -1, 0⟩
    (by decide) (by decide) (by decide) (by decide)

/-- C10: one call to `update_quality` preserves the number of items and
their order, never changes an item's name, and each output item is the
per-item update of the input item at the same position, so its new state
depends only on that item's own prior state. -/
theorem C10_update_quality_frame (items out : List Item)
    (h : update_quality items = some out) :
    out.length = items.length ∧
      (∀ i (hi : i < out.length) (hj : i < items.length),
        (out.get ⟨i, hi⟩).name = (items.get ⟨i, hj⟩).name ∧
          update_one_item (items.get ⟨i, hj⟩) = some (out.get ⟨i, hi⟩)) := by
  induction items generalizing out with
  | nil =>
      cases h
      exact ⟨rfl, fun i hi hj => absurd hj (Nat.not_lt_zero i)⟩
  | cons it rest ih =>
      unfold update_quality at h
      cases hu : update_one_item it with
      | none => rw [hu] at h; cases h
      | some it2 =>
          rw [hu] at h
          cases hr : update_quality rest with
          | none => rw [hr] at h; cases h
          | some rest2 =>
              rw [hr] at h
              cases h
              obtain ⟨hlen, hpt⟩ := ih rest2 hr
              refine ⟨by simp [hlen], ?_⟩
              intro i hi hj
              cases i with
              | zero => exact ⟨update_name_preserved it it2 hu, hu⟩
              | succ n =>
                  exact hpt n (Nat.lt_of_succ_lt_succ hi)
                    (Nat.lt_of_succ_lt_succ hj)

/-- C10 witness: a two-item inventory keeps its length, order and names. -/
theorem C10_update_quality_frame_witness :
    ([Item.mk ("foo").data 9 9, Item.mk ("Aged Brie").data 0 50] :
        List Item).length =
      ([Item.mk ("foo").data 10 10, Item.mk ("Aged Brie").data 1 50] :
        List Item).length :=
  (C10_update_quality_frame
    [Item.mk ("foo").data 10 10, Item.mk ("Aged Brie").data 1 50]
    [Item.mk ("foo").data 9 9, Item.mk ("Aged Brie").data 0 50]
    (by decide)).1

/-- C3: on every update in which the post-decrement `sell_in` is
negative — including every update of an item already expired before the
update — the expiry transition runs: a Normal item's quality drops by
delta a second time (floored at 0), an AgedBrie gains 1 more (capped at
50), and a BackstagePass's quality is set to 0 unconditionally,
regardless of its prior value, even one above 50. -/
theorem C3_expiry_transition (name : List Char) (s q : Int) (it2 : Item)
    (hs : saturating_sub s 1 < 0)
    (hu : update_one_item ⟨name, s, q⟩ = some it2) :
    (kindOf (split_conjured name).2 = Kind.Normal →
      it2.quality =
        dec_to_floor (dec_to_floor q (decDelta (split_conjured name).1))
          (decDelta (split_conjured name).1)) ∧
    (kindOf (split_conjured name).2 = Kind.AgedBrie →
      it2.quality = inc_to_cap (inc_to_cap q 1) 1) ∧
    (kindOf (split_conjured name).2 = Kind.BackstagePass →
      it2.quality = 0) := by
  refine ⟨?_, ?_, ?_⟩ <;> intro hkind
  · rw [update_normal_eq _ _ _ hkind, if_pos hs] at hu
    cases hu; rfl
  · rw [update_brie_eq _ _ _ hkind, if_pos hs] at hu
    cases hu; rfl
  · rw [update_backstage_eq _ _ _ hkind, if_pos hs] at hu
    cases hu; rfl

/-- C3 witness: a backstage pass five days past the concert with quality
60 (above the cap) is zeroed by the expiry transition. -/
theorem C3_expiry_transition_witness :
    (Item.mk ("Backstage passes to a TAFKAL80ETC concert").data (-6) 0).quality
      = 0 :=
  (C3_expiry_transition ("Backstage passes to a TAFKAL80ETC concert").data
      (-5) 60
      ⟨("Backstage passes to a TAFKAL80ETC concert").data, -6, 0⟩
      (by decide) (by decide)).2.2 (by decide)

/-- C4: the BackstagePass same-day quality transition is chosen from the
`sell_in` value before the decrement: +1 (capped at 50) when
`sell_in ≥ 11`, +2 when `6 ≤ sell_in ≤ 10`, +3 when `1 ≤ sell_in ≤ 5`,
and no same-day change when `sell_in ≤ 0`; in particular from
`(sell_in = 6, quality = 10)` one update yields `(5, 12)` and a second
update yields `(4, 15)`. -/
theorem C4_backstage_bands (name : List Char) (s q d : Int)
    (hk : kindOf (split_conjured name).2 = Kind.BackstagePass)
    (hs : isI32 s) :
    (11 ≤ s →
      update_one_item ⟨name, s, q⟩ = some ⟨name, s - 1, inc_to_cap q 1⟩) ∧
    (6 ≤ s → s ≤ 10 →
      update_one_item ⟨name, s, q⟩ = some ⟨name, s - 1, inc_to_cap q 2⟩) ∧
    (1 ≤ s → s ≤ 5 →
      update_one_item ⟨name, s, q⟩ = some ⟨name, s - 1, inc_to_cap q 3⟩) ∧
    (s ≤ 0 → sameDayQuality Kind.BackstagePass s q d = some q) ∧
    update_one_item
        ⟨("Backstage passes to a TAFKAL80ETC concert").data, 6, 10⟩ =
      some ⟨("Backstage passes to a TAFKAL80ETC concert").data, 5, 12⟩ ∧
    update_one_item
        ⟨("Backstage passes to a TAFKAL80ETC concert").data, 5, 12⟩ =
      some ⟨("Backstage passes to a TAFKAL80ETC concert").data, 4, 15⟩ := by
  obtain ⟨hlo, hhi⟩ := hs
  have hMIN : I32MIN = -(2 ^ 31) := rfl
  have hMAX : I32MAX = 2 ^ 31 - 1 := rfl
  refine ⟨?_, ?_, ?_, ?_, by decide, by decide⟩
  · intro h11
    have hss : saturating_sub s 1 = s - 1 := by
      unfold saturating_sub; rw [hMIN] at hlo ⊢; rw [hMAX] at hhi ⊢; omega
    rw [update_backstage_eq _ _ _ hk, hss, if_neg (by omega), if_pos h11]
  · intro h6 h10
    have hss : saturating_sub s 1 = s - 1 := by
      unfold saturating_sub; rw [hMIN] at hlo ⊢; rw [hMAX] at hhi ⊢; omega
    rw [update_backstage_eq _ _ _ hk, hss, if_neg (by omega),
      if_neg (by omega), if_pos h6]
  · intro h1 h5
    have hss : saturating_sub s 1 = s - 1 := by
      unfold saturating_sub; rw [hMIN] at hlo ⊢; rw [hMAX] at hhi ⊢; omega
    rw [update_backstage_eq _ _ _ hk, hss, if_neg (by omega),
      if_neg (by omega), if_neg (by omega), if_pos h1]
  · intro h0
    simp only [sameDayQuality]
    rw [if_neg (by omega), if_neg (by omega), if_neg (by omega)]

/-- C4 witness: a backstage pass with 12 days left gains 1. -/
theorem C4_backstage_bands_witness :
    update_one_item
        ⟨("Backstage passes to a TAFKAL80ETC concert").data, 12, 10⟩ =
      some ⟨("Backstage passes to a TAFKAL80ETC concert").data, 11,
        inc_to_cap 10 1⟩ :=
  (C4_backstage_bands ("Backstage passes to a TAFKAL80ETC concert").data
      12 10 0 (by decide) (by decide)).1 (by decide)

/-- C6: the conjured flag doubles only degradation: the delta is 2 when
conjured and 1 otherwise, it is used only by the Normal category's
quality decrements (same-day and expiry), while AgedBrie and
BackstagePass transitions are identical for every delta; a conjured
Normal item at (sell_in = 0, quality = 10) becomes (-1, 6). -/
theorem C6_conjured_doubles_degradation (name : List Char) (s q d d2 : Int) :
    decDelta true = 2 ∧ decDelta false = 1 ∧
    (∀ k : Kind, k ≠ Kind.Normal →
      sameDayQuality k s q d = sameDayQuality k s q d2 ∧
        expiryQuality k q d = expiryQuality k q d2) ∧
    sameDayQuality Kind.Normal s q d = some (dec_to_floor q d) ∧
    expiryQuality Kind.Normal q d = some (dec_to_floor q d) ∧
    ((split_conjured name).1 = true →
      kindOf (split_conjured name).2 = Kind.Normal →
      update_one_item ⟨name, s, q⟩ =
        if saturating_sub s 1 < 0 then
          some ⟨name, saturating_sub s 1, dec_to_floor (dec_to_floor q 2) 2⟩
        else some ⟨name, saturating_sub s 1, dec_to_floor q 2⟩) ∧
    update_one_item ⟨("Conjured foo").data, 0, 10⟩ =
      some ⟨("Conjured foo").data, -1, 6⟩ := by
  refine ⟨rfl, rfl, ?_, rfl, rfl, ?_, by decide⟩
  · intro k hk
    cases k with
    | Normal => exact absurd rfl hk
    | Legendary => exact ⟨rfl, rfl⟩
    | AgedBrie => exact ⟨rfl, rfl⟩
    | BackstagePass => exact ⟨rfl, rfl⟩
  · intro hc hkind
    rw [update_normal_eq _ _ _ hkind, hc]
    simp [decDelta]

/-- C6 witness: AgedBrie transitions ignore the delta entirely. -/
theorem C6_conjured_doubles_degradation_witness :
    sameDayQuality Kind.AgedBrie 3 10 1 = sameDayQuality Kind.AgedBrie 3 10 2 ∧
      expiryQuality Kind.AgedBrie 10 1 = expiryQuality Kind.AgedBrie 10 2 :=
  (C6_conjured_doubles_degradation ("x").data 3 10 1 2).2.2.1
    Kind.AgedBrie (by decide)

/-- C5 counterexample: on the name "Conjured " (the bare marker with an
empty remainder) the code sets the conjured flag although the remainder
after stripping is empty, refuting the claimed "if and only if". -/
theorem C5_counterexample :
    ¬ ((split_conjured ("Conjured ").data).1 = true ↔
        conjuredMark.isPrefixOf ("Conjured ").data ∧
          ("Conjured ").data.drop conjuredMark.length ≠ []) := by
  decide

/-- C5 amended: is_conjured is true iff the name starts with the literal
"Conjured " (case-sensitive, single space) — with no requirement that
the remainder be non-empty; when conjured, the category is computed from
the remainder, otherwise from the full name; a name that is exactly
"Conjured" is not conjured and classifies as Normal. -/
theorem C5_classification (name : List Char) :
    ((split_conjured name).1 = true ↔ ∃ rest, name = conjuredMark ++ rest) ∧
    (∀ rest, name = conjuredMark ++ rest →
      (split_conjured name).1 = true ∧ (split_conjured name).2 = rest) ∧
    ((split_conjured name).1 = false → (split_conjured name).2 = name) ∧
    (name = ("Conjured").data →
      (split_conjured name).1 = false ∧
        kindOf (split_conjured name).2 = Kind.Normal) := by
  refine ⟨?_, ?_, ?_, ?_⟩
  · constructor
    · intro hc
      by_cases hp : conjuredMark.isPrefixOf name
      · exact (isPrefixOf_iff_exists conjuredMark name).mp hp
      · simp [split_conjured, hp] at hc
    · rintro ⟨rest, rfl⟩
      have hp : conjuredMark.isPrefixOf (conjuredMark ++ rest) :=
        (isPrefixOf_iff_exists conjuredMark (conjuredMark ++ rest)).mpr
          ⟨rest, rfl⟩
      simp [split_conjured, hp]
  · rintro rest rfl
    have hp : conjuredMark.isPrefixOf (conjuredMark ++ rest) :=
      (isPrefixOf_iff_exists conjuredMark (conjuredMark ++ rest)).mpr
        ⟨rest, rfl⟩
    simp [split_conjured, hp]
  · intro hc
    by_cases hp : conjuredMark.isPrefixOf name <;>
      simp [split_conjured, hp] at hc ⊢
  · rintro rfl
    decide

/-- C5 witness: "Conjured Aged Brie" is conjured with remainder
"Aged Brie". -/
theorem C5_classification_witness :
    (split_conjured ("Conjured Aged Brie").data).1 = true ∧
      (split_conjured ("Conjured Aged Brie").data).2 = ("Aged Brie").data :=
  (C5_classification ("Conjured Aged Brie").data).2.1
    ("Aged Brie").data (by decide)

/-- C7 counterexample: with a negative n, inc_to_cap 10 (-5) = 5
decreases its input, and inc_to_cap 55 1 = 55 exceeds 50, refuting
"never decreases its input" and "never exceeds 50" as stated for every
integer n and q. -/
theorem C7_counterexample :
    inc_to_cap 10 (-5) = 5 ∧ inc_to_cap 10 (-5) < 10 ∧
      inc_to_cap 55 1 = 55 ∧ 50 < inc_to_cap 55 1 := by
  decide

/-- C7 amended: for every i32-representable q and every nonnegative n,
inc_to_cap returns q unchanged when q ≥ 50 and min(q + n, 50) otherwise,
with no overflow even for n = i32::MAX; it never decreases its input and
never exceeds max(q, 50); dec_to_floor mirrors this at floor 0; neither
function heals inputs already out of range in its direction of travel. -/
theorem C7_clamp_semantics (q n : Int) (hq : isI32 q) (hn : 0 ≤ n) :
    (inc_to_cap q n = if 50 ≤ q then q else min (q + n) 50) ∧
    q ≤ inc_to_cap q n ∧ inc_to_cap q n ≤ max q 50 ∧
    (dec_to_floor q n = if q ≤ 0 then q else max (q - n) 0) ∧
    dec_to_floor q n ≤ q ∧ min q 0 ≤ dec_to_floor q n ∧
    (50 ≤ q → inc_to_cap q n = q) ∧ (q ≤ 0 → dec_to_floor q n = q) := by
  obtain ⟨hlo, hhi⟩ := hq
  have hMIN : I32MIN = -(2 ^ 31) := rfl
  have hMAX : I32MAX = 2 ^ 31 - 1 := rfl
  rw [hMIN] at hlo
  rw [hMAX] at hhi
  unfold inc_to_cap dec_to_floor saturating_add saturating_sub
    QUALITY_MIN QUALITY_MAX
  rw [hMIN, hMAX]
  refine ⟨?_, ?_, ?_, ?_, ?_, ?_, ?_, ?_⟩ <;> split_ifs <;> omega

/-- C7 witness: at q = 49 with the maximal increment, the cap holds. -/
theorem C7_clamp_semantics_witness :
    (49 : Int) ≤ inc_to_cap 49 (2 ^ 31 - 1) :=
  (C7_clamp_semantics 49 (2 ^ 31 - 1) (by decide) (by decide)).2.1

/-- C8 counterexample: Sulfuras at sell_in = 5 is left unchanged by an
update, so the decrease is not strict although 5 is not the i32
saturation floor. -/
theorem C8_counterexample :
    update_one_item ⟨nameSulfuras, 5, 80⟩ = some ⟨nameSulfuras, 5, 80⟩ ∧
      (5 : Int) ≠ I32MIN := by
  decide

/-- C8 amended: sell_in never increases under an update; it strictly
decreases unless it is already at the i32 saturation floor or the item
is Legendary; from the floor it stays at the floor and never wraps. -/
theorem C8_sell_in_monotone (it it2 : Item) (hs : isI32 it.sell_in)
    (hu : update_one_item it = some it2) :
    it2.sell_in ≤ it.sell_in ∧
    (it2.sell_in = it.sell_in →
      it.sell_in = I32MIN ∨
        kindOf (split_conjured it.name).2 = Kind.Legendary) ∧
    (it.sell_in = I32MIN → it2.sell_in = I32MIN) := by
  obtain ⟨name, s, q⟩ := it
  simp only at hs ⊢
  obtain ⟨h1, h2⟩ := hs
  have hfacts : saturating_sub s 1 ≤ s ∧
      (saturating_sub s 1 = s ↔ s = I32MIN) ∧ I32MIN ≤ saturating_sub s 1 := by
    have hMIN : I32MIN = -(2 ^ 31) := rfl
    have hMAX : I32MAX = 2 ^ 31 - 1 := rfl
    rw [hMIN] at h1
    rw [hMAX] at h2
    unfold saturating_sub
    rw [hMIN, hMAX]
    refine ⟨by omega, ⟨fun hh => by omega, fun hh => by omega⟩, by omega⟩
  obtain ⟨hle, hiff, hflo⟩ := hfacts
  cases hkind : kindOf (split_conjured name).2 with
  | Legendary =>
      rw [update_legendary_eq _ _ _ hkind] at hu
      cases hu
      exact ⟨le_refl _, fun _ => Or.inr rfl, fun h => h⟩
  | Normal =>
      rw [update_normal_eq _ _ _ hkind] at hu
      split at hu <;> cases hu <;>
        exact ⟨hle, fun he => Or.inl (hiff.mp he),
          fun he => le_antisymm (hle.trans (le_of_eq he)) hflo⟩
  | AgedBrie =>
      rw [update_brie_eq _ _ _ hkind] at hu
      split at hu <;> cases hu <;>
        exact ⟨hle, fun he => Or.inl (hiff.mp he),
          fun he => le_antisymm (hle.trans (le_of_eq he)) hflo⟩
  | BackstagePass =>
      rw [update_backstage_eq _ _ _ hkind] at hu
      split at hu <;> cases hu <;>
        exact ⟨hle, fun he => Or.inl (hiff.mp he),
          fun he => le_antisymm (hle.trans (le_of_eq he)) hflo⟩

/-- C8 witness: a plain item's sell_in goes from 10 to 9, not upward. -/
theorem C8_sell_in_monotone_witness :
    (Item.mk ("foo").data 9 9).sell_in ≤ (Item.mk ("foo").data 10 10).sell_in :=
  (C8_sell_in_monotone ⟨("foo").data, 10, 10⟩ ⟨("foo").data, 9, 9⟩
    (by decide) (by decide)).1

end GildedRose
